import Mathlib

/-!
Verification of the mcp-meeting-assistant repository: a shallow embedding in
Lean 4 of the conversational tool-use orchestration loop, the Gemini model
adapter, and the MCP tool-server proxy, together with proofs of the stated
behavioural properties.

Embedding conventions:
- Python dictionaries that act as JSON schemas are modelled by the mutual
  inductive type JSON / JArr / JObj below (objects keep insertion order, as
  Python dicts do).
- Remote effects (the generative-model API, the MCP server) are modelled as
  pure oracle functions collected in an Env structure; a Python exception is
  modelled by the Except error channel, and the sentinel None by Option.none.
- Every remote invocation performed during a turn is recorded in a trace of
  RemoteCall values, so that statements such as "zero remote calls are made"
  or "a second chat call is issued without the tool catalog" are directly
  expressible.
-/

namespace MeetingAssistant

/-- Model of the Python str.upper primitive: uppercase every character. -/
def str_upper (s : String) : String :=
  ⟨s.data.map Char.toUpper⟩

/-- Model of the Python str.lower primitive: lowercase every character. -/
def str_lower (s : String) : String :=
  ⟨s.data.map Char.toLower⟩

/-- Model of the Python str.startswith primitive. -/
def py_startswith (pre s : String) : Bool :=
  pre.data.isPrefixOf s.data

/-- Model of the Python slice s[n:]: drop the first n characters. -/
def py_drop (n : Nat) (s : String) : String :=
  ⟨s.data.drop n⟩

/-- Model of the Python str.strip primitive: remove leading and trailing
whitespace. -/
def py_strip (s : String) : String :=
  ⟨((s.data.dropWhile Char.isWhitespace).reverse.dropWhile Char.isWhitespace).reverse⟩

/-- Worker for the no-argument Python str.split: walk the characters,
accumulating the current (reversed) token. -/
def pySplitAux : List Char → List Char → List String
  | [], cur => if cur = [] then [] else [String.mk cur.reverse]
  | c :: rest, cur =>
    if c.isWhitespace then
      if cur = [] then pySplitAux rest []
      else String.mk cur.reverse :: pySplitAux rest []
    else pySplitAux rest (c :: cur)

/-- Model of the no-argument Python str.split: the maximal runs of
non-whitespace characters, in order. -/
def pySplitWhitespace (s : String) : List String :=
  pySplitAux s.data []

/-- Model of the Python str.join primitive. -/
def py_join (sep : String) : List String → String
  | [] => ""
  | [x] => x
  | x :: xs => x ++ sep ++ py_join sep xs

mutual

/-- JSON values, as produced by Python json / dict literals.  Objects and
arrays are separate mutual inductives so that structural recursion and
induction over nesting are available. -/
inductive JSON where
  | str (s : String)
  | num (n : Int)
  | boolean (b : Bool)
  | null
  | arr (elems : JArr)
  | obj (fields : JObj)
  deriving DecidableEq

/-- A JSON array: an ordered list of JSON values. -/
inductive JArr where
  | nil
  | cons (hd : JSON) (tl : JArr)
  deriving DecidableEq

/-- A JSON object: an ordered association list of key and value pairs. -/
inductive JObj where
  | nil
  | cons (key : String) (val : JSON) (tl : JObj)
  deriving DecidableEq

end

mutual

/-- gemini.clean_schema: recursively drops every "title" key and uppercases
every string-valued "type" field, descending into nested dicts and lists. -/
def clean_schema : JSON → JSON
  | .str s => .str s
  | .num n => .num n
  | .boolean b => .boolean b
  | .null => .null
  | .arr l => .arr (clean_schema_arr l)
  | .obj kvs => .obj (clean_schema_obj kvs)

/-- The list branch of clean_schema: clean each element. -/
def clean_schema_arr : JArr → JArr
  | .nil => .nil
  | .cons x tl => .cons (clean_schema x) (clean_schema_arr tl)

/-- The dict branch of clean_schema: skip "title" keys, uppercase the value
of a "type" key when it is a string, and recurse otherwise. -/
def clean_schema_obj : JObj → JObj
  | .nil => .nil
  | .cons k v tl =>
    if k = "title" then clean_schema_obj tl
    else if k = "type" then
      match v with
      | .str s => .cons k (.str (str_upper s)) (clean_schema_obj tl)
      | _ => .cons k (clean_schema v) (clean_schema_obj tl)
    else .cons k (clean_schema v) (clean_schema_obj tl)

end

mutual

/-- No node of the value contains a "title" key, at any nesting depth. -/
def noTitle : JSON → Bool
  | .arr l => noTitleArr l
  | .obj kvs => noTitleObj kvs
  | _ => true

/-- noTitle, over arrays. -/
def noTitleArr : JArr → Bool
  | .nil => true
  | .cons x tl => noTitle x && noTitleArr tl

/-- noTitle, over objects. -/
def noTitleObj : JObj → Bool
  | .nil => true
  | .cons k v tl => (k != "title") && noTitle v && noTitleObj tl

end

mutual

/-- Every string-valued "type" field of the value, at any nesting depth, is
fixed under uppercasing (i.e. has already been recased to uppercase). -/
def typesUpper : JSON → Bool
  | .arr l => typesUpperArr l
  | .obj kvs => typesUpperObj kvs
  | _ => true

/-- typesUpper, over arrays. -/
def typesUpperArr : JArr → Bool
  | .nil => true
  | .cons x tl => typesUpper x && typesUpperArr tl

/-- typesUpper, over objects. -/
def typesUpperObj : JObj → Bool
  | .nil => true
  | .cons k v tl =>
    (if k = "type" then
      match v with
      | .str s => str_upper s == s
      | _ => typesUpper v
     else typesUpper v) && typesUpperObj tl

end

theorem char_toNat_ofNat_valid (n : Nat) (h : Nat.isValidChar n) :
    (Char.ofNat n).toNat = n := by
  unfold Char.ofNat
  rw [dif_pos h]
  rfl

theorem char_toUpper_idem (c : Char) : c.toUpper.toUpper = c.toUpper := by
  unfold Char.toUpper
  by_cases h : c.toNat ≥ 97 ∧ c.toNat ≤ 122
  · rw [if_pos h]
    have hv : Nat.isValidChar (c.toNat - 32) := by
      left
      omega
    show (if (Char.ofNat (c.toNat - 32)).toNat ≥ 97 ∧ (Char.ofNat (c.toNat - 32)).toNat ≤ 122
          then Char.ofNat ((Char.ofNat (c.toNat - 32)).toNat - 32)
          else Char.ofNat (c.toNat - 32)) = Char.ofNat (c.toNat - 32)
    rw [char_toNat_ofNat_valid _ hv]
    rw [if_neg]
    omega
  · rw [if_neg h]
    exact if_neg h

theorem str_upper_idem (s : String) : str_upper (str_upper s) = str_upper s := by
  unfold str_upper
  cases s with
  | mk data =>
    simp only [List.map_map]
    congr 1
    apply List.map_congr_left
    intro c _
    exact char_toUpper_idem c

mutual

theorem clean_schema_idem : ∀ x : JSON, clean_schema (clean_schema x) = clean_schema x
  | .str s => rfl
  | .num n => rfl
  | .boolean b => rfl
  | .null => rfl
  | .arr l => by
    simp only [clean_schema]
    rw [clean_schema_arr_idem l]
  | .obj kvs => by
    simp only [clean_schema]
    rw [clean_schema_obj_idem kvs]

theorem clean_schema_arr_idem : ∀ l : JArr, clean_schema_arr (clean_schema_arr l) = clean_schema_arr l
  | .nil => rfl
  | .cons x tl => by
    simp only [clean_schema_arr]
    rw [clean_schema_idem x, clean_schema_arr_idem tl]

theorem clean_schema_obj_idem : ∀ kvs : JObj, clean_schema_obj (clean_schema_obj kvs) = clean_schema_obj kvs
  | .nil => rfl
  | .cons k v tl => by
    by_cases hk : k = "title"
    · simp only [clean_schema_obj, if_pos hk]
      exact clean_schema_obj_idem tl
    · by_cases ht : k = "type"
      · cases v with
        | str s =>
          simp only [clean_schema_obj, if_neg hk, if_pos ht]
          rw [str_upper_idem s, clean_schema_obj_idem tl]
        | num n =>
          simp only [clean_schema_obj, if_neg hk, if_pos ht, clean_schema]
          rw [clean_schema_obj_idem tl]
        | boolean b =>
          simp only [clean_schema_obj, if_neg hk, if_pos ht, clean_schema]
          rw [clean_schema_obj_idem tl]
        | null =>
          simp only [clean_schema_obj, if_neg hk, if_pos ht, clean_schema]
          rw [clean_schema_obj_idem tl]
        | arr l =>
          simp only [clean_schema_obj, if_neg hk, if_pos ht, clean_schema]
          rw [clean_schema_arr_idem l, clean_schema_obj_idem tl]
        | obj kvs2 =>
          simp only [clean_schema_obj, if_neg hk, if_pos ht, clean_schema]
          rw [clean_schema_obj_idem kvs2, clean_schema_obj_idem tl]
      · simp only [clean_schema_obj, if_neg hk, if_neg ht]
        rw [clean_schema_idem v, clean_schema_obj_idem tl]

end

mutual

theorem clean_schema_noTitle : ∀ x : JSON, noTitle (clean_schema x) = true
  | .str s => rfl
  | .num n => rfl
  | .boolean b => rfl
  | .null => rfl
  | .arr l => by
    simp only [clean_schema, noTitle]
    exact clean_schema_arr_noTitle l
  | .obj kvs => by
    simp only [clean_schema, noTitle]
    exact clean_schema_obj_noTitle kvs

theorem clean_schema_arr_noTitle : ∀ l : JArr, noTitleArr (clean_schema_arr l) = true
  | .nil => rfl
  | .cons x tl => by
    simp only [clean_schema_arr, noTitleArr, Bool.and_eq_true]
    exact ⟨clean_schema_noTitle x, clean_schema_arr_noTitle tl⟩

theorem clean_schema_obj_noTitle : ∀ kvs : JObj, noTitleObj (clean_schema_obj kvs) = true
  | .nil => rfl
  | .cons k v tl => by
    by_cases hk : k = "title"
    · simp only [clean_schema_obj, if_pos hk]
      exact clean_schema_obj_noTitle tl
    · by_cases ht : k = "type"
      · cases v with
        | str s =>
          simp only [clean_schema_obj, if_neg hk, if_pos ht, noTitleObj, Bool.and_eq_true,
            bne_iff_ne, ne_eq]
          exact ⟨⟨hk, rfl⟩, clean_schema_obj_noTitle tl⟩
        | num n =>
          simp only [clean_schema_obj, if_neg hk, if_pos ht, noTitleObj, Bool.and_eq_true,
            bne_iff_ne, ne_eq]
          exact ⟨⟨hk, clean_schema_noTitle _⟩, clean_schema_obj_noTitle tl⟩
        | boolean b =>
          simp only [clean_schema_obj, if_neg hk, if_pos ht, noTitleObj, Bool.and_eq_true,
            bne_iff_ne, ne_eq]
          exact ⟨⟨hk, clean_schema_noTitle _⟩, clean_schema_obj_noTitle tl⟩
        | null =>
          simp only [clean_schema_obj, if_neg hk, if_pos ht, noTitleObj, Bool.and_eq_true,
            bne_iff_ne, ne_eq]
          exact ⟨⟨hk, clean_schema_noTitle _⟩, clean_schema_obj_noTitle tl⟩
        | arr l =>
          simp only [clean_schema_obj, if_neg hk, if_pos ht, noTitleObj, Bool.and_eq_true,
            bne_iff_ne, ne_eq]
          exact ⟨⟨hk, clean_schema_noTitle _⟩, clean_schema_obj_noTitle tl⟩
        | obj kvs2 =>
          simp only [clean_schema_obj, if_neg hk, if_pos ht, noTitleObj, Bool.and_eq_true,
            bne_iff_ne, ne_eq]
          exact ⟨⟨hk, clean_schema_noTitle _⟩, clean_schema_obj_noTitle tl⟩
      · simp only [clean_schema_obj, if_neg hk, if_neg ht, noTitleObj, Bool.and_eq_true,
          bne_iff_ne, ne_eq]
        exact ⟨⟨hk, clean_schema_noTitle _⟩, clean_schema_obj_noTitle tl⟩

end

mutual

theorem clean_schema_typesUpper : ∀ x : JSON, typesUpper (clean_schema x) = true
  | .str s => rfl
  | .num n => rfl
  | .boolean b => rfl
  | .null => rfl
  | .arr l => by
    simp only [clean_schema, typesUpper]
    exact clean_schema_arr_typesUpper l
  | .obj kvs => by
    simp only [clean_schema, typesUpper]
    exact clean_schema_obj_typesUpper kvs

theorem clean_schema_arr_typesUpper : ∀ l : JArr, typesUpperArr (clean_schema_arr l) = true
  | .nil => rfl
  | .cons x tl => by
    simp only [clean_schema_arr, typesUpperArr, Bool.and_eq_true]
    exact ⟨clean_schema_typesUpper x, clean_schema_arr_typesUpper tl⟩

theorem clean_schema_obj_typesUpper : ∀ kvs : JObj, typesUpperObj (clean_schema_obj kvs) = true
  | .nil => rfl
  | .cons k v tl => by
    by_cases hk : k = "title"
    · simp only [clean_schema_obj, if_pos hk]
      exact clean_schema_obj_typesUpper tl
    · by_cases ht : k = "type"
      · cases v with
        | str s =>
          simp only [clean_schema_obj, if_neg hk, if_pos ht, typesUpperObj,
            Bool.and_eq_true]
          refine ⟨?_, clean_schema_obj_typesUpper tl⟩
          simp only [beq_iff_eq]
          exact str_upper_idem s
        | num n =>
          simp only [clean_schema_obj, if_neg hk, if_pos ht, typesUpperObj,
            Bool.and_eq_true]
          refine ⟨?_, clean_schema_obj_typesUpper tl⟩
          exact clean_schema_typesUpper _
        | boolean b =>
          simp only [clean_schema_obj, if_neg hk, if_pos ht, typesUpperObj,
            Bool.and_eq_true]
          refine ⟨?_, clean_schema_obj_typesUpper tl⟩
          exact clean_schema_typesUpper _
        | null =>
          simp only [clean_schema_obj, if_neg hk, if_pos ht, typesUpperObj,
            Bool.and_eq_true]
          refine ⟨?_, clean_schema_obj_typesUpper tl⟩
          exact clean_schema_typesUpper _
        | arr l =>
          simp only [clean_schema_obj, if_neg hk, if_pos ht, typesUpperObj,
            Bool.and_eq_true]
          refine ⟨?_, clean_schema_obj_typesUpper tl⟩
          exact clean_schema_typesUpper _
        | obj kvs2 =>
          simp only [clean_schema_obj, if_neg hk, if_pos ht, typesUpperObj,
            Bool.and_eq_true]
          refine ⟨?_, clean_schema_obj_typesUpper tl⟩
          exact clean_schema_typesUpper _
      · simp only [clean_schema_obj, if_neg hk, if_neg ht, typesUpperObj,
          Bool.and_eq_true]
        refine ⟨?_, clean_schema_obj_typesUpper tl⟩
        exact clean_schema_typesUpper _

end

/-- Claim C4: for every JSON-schema-shaped input, clean_schema is idempotent,
no node of the output contains a "title" key at any nesting depth, and every
string-valued "type" field of the output is recased to uppercase (fixed under
uppercasing). -/
theorem clean_schema_idempotent_noTitle_typesUpper (x : JSON) :
    clean_schema (clean_schema x) = clean_schema x ∧
    noTitle (clean_schema x) = true ∧
    typesUpper (clean_schema x) = true :=
  ⟨clean_schema_idem x, clean_schema_noTitle x, clean_schema_typesUpper x⟩

/-- A structured tool-call request produced by the model (SDK function_call). -/
structure FunctionCall where
  name : String
  args : List (String × String)
  deriving DecidableEq

/-- A content part: plain text, a tool-call request, or a tool-call result.
A functionResponse part models the dict with a function_response key holding
the tool name and a response dict with a content string. -/
inductive Part where
  | text (s : String)
  | functionCall (fc : FunctionCall)
  | functionResponse (name : String) (content : String)
  deriving DecidableEq

/-- The SDK part attribute p.function_call: the request if this part is one,
otherwise a falsy value. -/
def Part.function_call : Part → Option FunctionCall
  | .functionCall fc => some fc
  | _ => none

/-- The tool name carried by a part (empty for plain text parts). -/
def Part.partName : Part → String
  | .text _ => ""
  | .functionCall fc => fc.name
  | .functionResponse n _ => n

/-- A role-tagged message: the dict with role and parts keys, and also the
SDK Content object (both have exactly this shape). -/
structure Content where
  role : String
  parts : List Part
  deriving DecidableEq

/-- One candidate of a model response. -/
structure Candidate where
  content : Content
  deriving DecidableEq

/-- The exception classes that the response.text accessor of the SDK can
raise and that text_from_message catches. -/
inductive TxtErr where
  | valueError
  | indexError
  deriving DecidableEq

instance {e a : Type} [DecidableEq e] [DecidableEq a] : DecidableEq (Except e a) := fun x y => by
  cases x <;> cases y
  case error.error u v =>
    exact if h : u = v then .isTrue (by rw [h])
      else .isFalse (by intro hc; injection hc; contradiction)
  case ok.ok u v =>
    exact if h : u = v then .isTrue (by rw [h])
      else .isFalse (by intro hc; injection hc; contradiction)
  case error.ok u v => exact .isFalse (by intro hc; exact Except.noConfusion hc)
  case ok.error u v => exact .isFalse (by intro hc; exact Except.noConfusion hc)

/-- A model response: its candidate list plus the behaviour of its text
accessor (a value, or one of the two exceptions it can raise). -/
structure Response where
  candidates : List Candidate
  textAttr : Except TxtErr String
  deriving DecidableEq

/-- MCP content items returned by a tool call. -/
inductive MCPContent where
  | textContent (text : String)
  | otherContent
  deriving DecidableEq

/-- The text of a TextContent item, none for other item kinds. -/
def MCPContent.textOf : MCPContent → Option String
  | .textContent t => some t
  | _ => none

/-- The result object of an MCP call_tool invocation. -/
structure CallToolResult where
  content : List MCPContent
  deriving DecidableEq

/-- A Gemini-dialect function declaration produced by get_tools. -/
structure FunctionDeclaration where
  name : String
  description : String
  parameters : JSON
  deriving DecidableEq

/-- A Gemini-dialect tool entry: a singleton function_declarations list. -/
structure GTool where
  function_declarations : List FunctionDeclaration
  deriving DecidableEq

/-- An MCP tool definition as returned by the server. -/
structure MTool where
  name : String
  description : String
  inputSchema : Option JSON
  deriving DecidableEq

/-- One remote invocation, recorded in order in a trace: the generative-model
call (with the exact message list and tool catalog passed), the MCP tool
listing, an MCP tool call, a prompt resolution, or a prompt listing. -/
inductive RemoteCall where
  | listToolsCall
  | generateContentCall (messages : List Content) (tools : Option (List GTool))
  | callToolCall (name : String) (args : List (String × String))
  | getPromptCall (name : String)
  | listPromptsCall
  deriving DecidableEq

/-- Outcome of one generate_content API invocation: a response, a transient
server-side failure (the InternalServerError class), or any other raised
exception. -/
inductive ApiOutcome where
  | success (r : Response)
  | internalServerError (msg : String)
  | otherError (msg : String)

/-- Oracle for the generative-model backend: what the API call does, as a
function of the message list and the tool catalog actually transmitted. -/
def ChatApi : Type := List Content → Option (List GTool) → ApiOutcome

/-- The params dict of Gemini.chat gets a tools key only when the tools
argument is truthy: absent for None and for the empty list. -/
def normalizeTools : Option (List GTool) → Option (List GTool)
  | none => none
  | some [] => none
  | some l => some l

/-- Gemini.chat: perform the API call; a success returns the response, the
InternalServerError handler returns None, and the catch-all handler for any
other exception also returns None.  The Except layer is the Python exception
channel out of chat: every branch is ok, so chat never raises.  The second
component is the trace: exactly one API call is made. -/
def chat (api : ChatApi) (messages : List Content) (tools : Option (List GTool)) :
    Except String (Option Response) × List RemoteCall :=
  let sent := normalizeTools tools
  (match api messages sent with
   | .success r => .ok (some r)
   | .internalServerError _ => .ok none
   | .otherError _ => .ok none,
   [RemoteCall.generateContentCall messages sent])

/-- Gemini.text_from_message: empty string for an absent response and when
the text accessor raises ValueError or IndexError; the text otherwise. -/
def text_from_message (response : Option Response) : String :=
  match response with
  | none => ""
  | some r =>
    match r.textAttr with
    | .ok t => t
    | .error _ => ""

/-- Gemini.add_message_to_history: a plain append. -/
def add_message_to_history (messages : List Content) (message : Content) : List Content :=
  messages ++ [message]

/-- ChatSession._add_valid_model_response: append the first candidate content
only when the response is truthy, has candidates, and the first candidate
content has a nonempty parts list; otherwise leave the list unchanged. -/
def add_valid_model_response (response : Option Response) (messages : List Content) : List Content :=
  match response with
  | none => messages
  | some r =>
    match r.candidates with
    | [] => messages
    | c :: _ =>
      match c.content.parts with
      | [] => messages
      | _ => add_message_to_history messages c.content

/-- An apostrophe character as a string (used by the error message format of
execute_tool_requests). -/
def squote : String := String.singleton (Char.ofNat 39)

/-- Model of json.dumps on the list of text items collected from a tool
result. -/
def jsonDumpsStrList (items : List String) : String :=
  "[" ++ String.intercalate ", " (items.map (fun s => "\"" ++ s ++ "\"")) ++ "]"

/-- Model of json.dumps on the error dict built when a tool call raises: the
serialized form of the dict with an error key whose value names the tool. -/
def jsonDumpsToolError (tool_name : String) (e : String) : String :=
  ("\x7b\"error\": \"Error executing tool " ++ squote) ++ tool_name ++
    (squote ++ ": " ++ e ++ "\"\x7d")

/-- Oracle for the MCP client call_tool method: for given name and arguments,
either a raised exception (error) or a returned result (possibly falsy). -/
def ToolCaller : Type := String → List (String × String) → Except String (Option CallToolResult)

/-- The body of the per-call loop of execute_tool_requests: invoke the tool;
on success serialize the text items of the result (an absent result yields an
empty item list); on a raised exception serialize the error dict naming the
tool.  Either way produce one function_response part. -/
def execOneToolCall (callTool : ToolCaller) (call : FunctionCall) : Part :=
  let output_content :=
    match callTool call.name call.args with
    | .ok tool_output =>
      let items := match tool_output with
        | some o => o.content
        | none => []
      jsonDumpsStrList (items.filterMap MCPContent.textOf)
    | .error e => jsonDumpsToolError call.name e
  Part.functionResponse call.name output_content

/-- The sequential loop of execute_tool_requests over the extracted calls,
also recording the remote invocations in order. -/
def execToolLoop (callTool : ToolCaller) : List FunctionCall → List Part × List RemoteCall
  | [] => ([], [])
  | call :: rest =>
    let part := execOneToolCall callTool call
    let (ps, tr) := execToolLoop callTool rest
    (part :: ps, RemoteCall.callToolCall call.name call.args :: tr)

/-- Gemini.execute_tool_requests: guard against an absent response, an empty
candidate list or an empty parts list; extract the function_call parts in
order; run the loop. -/
def execute_tool_requests (callTool : ToolCaller) (response : Option Response) :
    List Part × List RemoteCall :=
  match response with
  | none => ([], [])
  | some r =>
    match r.candidates with
    | [] => ([], [])
    | c :: _ =>
      match c.content.parts with
      | [] => ([], [])
      | _ =>
        let function_calls := c.content.parts.filterMap Part.function_call
        execToolLoop callTool function_calls

/-- The tool-call requests carried by a model response, in the order in which
they appear among the content parts of the first candidate. -/
def toolRequests (response : Option Response) : List FunctionCall :=
  match response with
  | none => []
  | some r =>
    match r.candidates with
    | [] => []
    | c :: _ => c.content.parts.filterMap Part.function_call

/-- Gemini.ask: append the user question, send the whole history, and on an
absent response or an empty extracted text pop the question again and return
the empty string; on a nonempty text append the model message and return the
text.  The pair is (returned text, resulting history). -/
def ask (api : ChatApi) (question : String) (messages_history : List Content) :
    Except String (String × List Content) :=
  let h1 := add_message_to_history messages_history ⟨"user", [Part.text question]⟩
  match (chat api h1 none).1 with
  | .error e => .error e
  | .ok none => .ok ("", h1.dropLast)
  | .ok (some response) =>
    let text := text_from_message (some response)
    if text = "" then .ok (text, h1.dropLast)
    else .ok (text, add_message_to_history h1 ⟨"model", [Part.text text]⟩)

theorem execToolLoop_eq (ct : ToolCaller) (calls : List FunctionCall) :
    execToolLoop ct calls =
      (calls.map (execOneToolCall ct),
       calls.map (fun c => RemoteCall.callToolCall c.name c.args)) := by
  induction calls with
  | nil => rfl
  | cons c rest ih => simp [execToolLoop, ih]

theorem execute_tool_requests_fst_eq (ct : ToolCaller) (response : Option Response) :
    (execute_tool_requests ct response).1 =
      (toolRequests response).map (execOneToolCall ct) := by
  cases response with
  | none => rfl
  | some r =>
    cases hr : r.candidates with
    | nil => simp [execute_tool_requests, toolRequests, hr]
    | cons c cs =>
      cases hp : c.content.parts with
      | nil => simp [execute_tool_requests, toolRequests, hr, hp]
      | cons p ps =>
        simp [execute_tool_requests, toolRequests, hr, hp, execToolLoop_eq]

theorem partName_execOneToolCall (ct : ToolCaller) (call : FunctionCall) :
    Part.partName (execOneToolCall ct call) = call.name := rfl

/-- Claim C2: for every tool-call batch of size N requested in one model
response, execute_tool_requests returns exactly N result parts, in the same
order as the requests appear among the content parts of the response; every
call whose invocation raises contributes an error-shaped payload part whose
content mentions the tool name (rather than shortening or aborting the
batch); and a response with no tool-call requests yields the empty
sequence. -/
theorem execute_tool_requests_exact_batch (ct : ToolCaller) (response : Option Response) :
    (execute_tool_requests ct response).1.length = (toolRequests response).length ∧
    (execute_tool_requests ct response).1.map Part.partName =
      (toolRequests response).map FunctionCall.name ∧
    (∀ i (hi : i < (toolRequests response).length)
       (hj : i < (execute_tool_requests ct response).1.length) (e : String),
       ct ((toolRequests response).get ⟨i, hi⟩).name
           ((toolRequests response).get ⟨i, hi⟩).args = .error e →
       ∃ pre post,
         (execute_tool_requests ct response).1.get ⟨i, hj⟩ =
           Part.functionResponse ((toolRequests response).get ⟨i, hi⟩).name
             (pre ++ ((toolRequests response).get ⟨i, hi⟩).name ++ post)) ∧
    (toolRequests response = [] → (execute_tool_requests ct response).1 = []) := by
  refine ⟨?_, ?_, ?_, ?_⟩
  · rw [execute_tool_requests_fst_eq]
    exact List.length_map _ _
  · rw [execute_tool_requests_fst_eq, List.map_map]
    apply List.map_congr_left
    intro c _
    rfl
  · intro i hi hj e hct
    refine ⟨("\x7b\"error\": \"Error executing tool " ++ squote),
            (squote ++ ": " ++ e ++ "\"\x7d"), ?_⟩
    have hg : (execute_tool_requests ct response).1.get ⟨i, hj⟩ =
        execOneToolCall ct ((toolRequests response).get ⟨i, hi⟩) := by
      have := execute_tool_requests_fst_eq ct response
      rw [List.get_eq_getElem, List.get_eq_getElem]
      simp only [this, List.getElem_map]
    rw [hg]
    unfold execOneToolCall
    rw [hct]
    rfl
  · intro h
    rw [execute_tool_requests_fst_eq, h]
    rfl

/-- A concrete response carrying exactly one tool-call request. -/
def respWithOneCall : Response :=
  ⟨[⟨⟨"model", [Part.functionCall ⟨"schedule_meeting", [("topic", "Q3")]⟩]⟩⟩],
   Except.error TxtErr.valueError⟩

/-- A tool caller whose every invocation raises a transport failure. -/
def failingCaller : ToolCaller := fun _ _ => Except.error "transport failure"

theorem execute_tool_requests_exact_batch_witness :
    (execute_tool_requests failingCaller (some respWithOneCall)).1.length =
      (toolRequests (some respWithOneCall)).length :=
  (execute_tool_requests_exact_batch failingCaller (some respWithOneCall)).1

/-- Claim C3 counterexample: when the API call raises a failure that is not
the classified transient server error, Gemini.chat does not propagate it as a
raised exception; the catch-all handler swallows it and chat returns the
absent sentinel through the ordinary (non-raising) channel. -/
theorem chat_swallows_other_failures :
    (chat (fun _ _ => ApiOutcome.otherError "boom") [] none).1 = Except.ok none := rfl

/-- Claim C3 (amended): chat returns the absent sentinel (not an exception)
on a classified transient server-side failure, and equally on every other
kind of raised failure (the catch-all handler swallows them too); it returns
the response on success; no failure whatsoever propagates out of chat as a
raised exception. -/
theorem chat_success_or_absent (api : ChatApi) (messages : List Content)
    (tools : Option (List GTool)) :
    (∀ r, api messages (normalizeTools tools) = .success r →
      (chat api messages tools).1 = .ok (some r)) ∧
    (∀ m, api messages (normalizeTools tools) = .internalServerError m →
      (chat api messages tools).1 = .ok none) ∧
    (∀ m, api messages (normalizeTools tools) = .otherError m →
      (chat api messages tools).1 = .ok none) ∧
    (∀ e, (chat api messages tools).1 ≠ .error e) := by
  refine ⟨?_, ?_, ?_, ?_⟩
  · intro r h
    simp [chat, h]
  · intro m h
    simp [chat, h]
  · intro m h
    simp [chat, h]
  · intro e
    cases h : api messages (normalizeTools tools) <;> simp [chat, h]

theorem chat_success_or_absent_witness :
    (chat (fun _ _ => ApiOutcome.internalServerError "500") [] none).1 = .ok none :=
  (chat_success_or_absent (fun _ _ => ApiOutcome.internalServerError "500")
    [] none).2.1 "500" rfl

/-- The guard of _add_valid_model_response is falsy: the response is absent,
or it has no candidates, or the first candidate content has no parts. -/
def invalidModelResponse (response : Option Response) : Bool :=
  match response with
  | none => true
  | some r =>
    match r.candidates with
    | [] => true
    | c :: _ => c.content.parts.isEmpty

/-- Claim C6: for every model response whose candidate content is empty or
whose parts sequence is empty (or which is absent), _add_valid_model_response
is a no-op: the message list is returned unchanged, so the validated append
never puts a model message with empty parts into history. -/
theorem add_valid_model_response_noop (response : Option Response)
    (messages : List Content) (h : invalidModelResponse response = true) :
    add_valid_model_response response messages = messages := by
  cases response with
  | none => rfl
  | some r =>
    cases hr : r.candidates with
    | nil => simp [add_valid_model_response, hr]
    | cons c cs =>
      cases hp : c.content.parts with
      | nil => simp [add_valid_model_response, hr, hp]
      | cons p ps =>
        exfalso
        simp [invalidModelResponse, hr, hp] at h

theorem add_valid_model_response_noop_witness :
    invalidModelResponse (some { candidates := [], textAttr := Except.ok "hi" }) = true ∧
    add_valid_model_response (some { candidates := [], textAttr := Except.ok "hi" })
      [⟨"user", [Part.text "q"]⟩] = [⟨"user", [Part.text "q"]⟩] :=
  ⟨rfl, add_valid_model_response_noop _ _ rfl⟩

/-- Claim C10: when the chat call inside ask returns the absent sentinel, or
the extracted response text is empty, ask returns the empty string and a
history equal to its contents before the call: the user question appended at
the start of ask is popped again, so a failed ask never leaves a dangling
user message. -/
theorem ask_failure_restores_history (api : ChatApi) (question : String)
    (history : List Content)
    (hfail :
      (chat api (add_message_to_history history ⟨"user", [Part.text question]⟩) none).1 =
        .ok none ∨
      ∃ r,
        (chat api (add_message_to_history history ⟨"user", [Part.text question]⟩) none).1 =
          .ok (some r) ∧ text_from_message (some r) = "") :
    ask api question history = .ok ("", history) := by
  cases hfail with
  | inl h =>
    simp only [ask, h]
    simp [add_message_to_history]
  | inr h =>
    obtain ⟨r, hchat, htext⟩ := h
    simp only [ask, hchat, htext]
    simp [add_message_to_history]

theorem ask_failure_restores_history_witness :
    ask (fun _ _ => ApiOutcome.internalServerError "500") "q" [] = .ok ("", []) :=
  ask_failure_restores_history (fun _ _ => ApiOutcome.internalServerError "500")
    "q" [] (Or.inl rfl)

/-- The MCPClient state: only the session attribute matters for the
connection state machine (absent before connect and again after cleanup). -/
structure MCPClient where
  sessionOpt : Option Nat
  deriving DecidableEq

/-- The exception raised by proxy operations used before a connection
exists. -/
inductive MCPError where
  | connectionError (msg : String)
  deriving DecidableEq

/-- MCPClient.session: return the active session handle, or raise
ConnectionError when the attribute is absent. -/
def MCPClient.session (c : MCPClient) : Except MCPError Nat :=
  match c.sessionOpt with
  | none => .error (.connectionError "Client session not initialized. Call connect first.")
  | some s => .ok s

/-- MCPClient.connect: enter the transports and store the initialized
session (the handle is supplied by the handshake oracle). -/
def MCPClient.connect (handle : Nat) (_c : MCPClient) : MCPClient :=
  ⟨some handle⟩

/-- MCPClient.list_tools: query the session for its tools; raises through
session() when not connected. -/
def MCPClient.list_tools (serverTools : Nat → List MTool) (c : MCPClient) :
    Except MCPError (List MTool) :=
  (c.session).map serverTools

/-- MCPClient.call_tool: invoke a named tool on the session; raises through
session() when not connected. -/
def MCPClient.call_tool
    (serverCall : Nat → String → List (String × String) → Option CallToolResult)
    (c : MCPClient) (tool_name : String) (tool_input : List (String × String)) :
    Except MCPError (Option CallToolResult) :=
  (c.session).map (fun s => serverCall s tool_name tool_input)

/-- One message of a prompt-resolution result. -/
structure PromptMessage where
  text : String
  deriving DecidableEq

/-- The result object of an MCP get_prompt request. -/
structure GetPromptResult where
  messages : List PromptMessage
  deriving DecidableEq

/-- MCPClient.run_prompt: guard on the session attribute (raising
ConnectionError when absent), resolve the prompt, and return the text of the
first message, or None when the server returned no messages. -/
def MCPClient.run_prompt (serverPrompt : Nat → String → Option GetPromptResult)
    (c : MCPClient) (name : String) : Except MCPError (Option String) :=
  match c.sessionOpt with
  | none => .error (.connectionError "Not connected to the MCP server.")
  | some s =>
    match serverPrompt s name with
    | some prompt_result =>
      match prompt_result.messages with
      | m :: _ => .ok (some m.text)
      | [] => .ok none
    | none => .ok none

/-- MCPClient.list_prompts: guard on the session attribute (raising
ConnectionError when absent) and return the prompt names. -/
def MCPClient.list_prompts (serverPrompts : Nat → List String) (c : MCPClient) :
    Except MCPError (List String) :=
  match c.sessionOpt with
  | none => .error (.connectionError "Not connected to the MCP server.")
  | some s => .ok (serverPrompts s)

/-- MCPClient.cleanup: close the exit stack and clear the session attribute;
it performs no state guard, so it is invocable in every state, and it always
leaves the closed state. -/
def MCPClient.cleanup (_c : MCPClient) : MCPClient :=
  ⟨none⟩

/-- Claim C9: each proxy operation other than cleanup (list_tools, call_tool,
run_prompt, list_prompts) raises ConnectionError whenever the session
attribute is absent, which is exactly the condition both before connect has
completed and after cleanup has closed the session; cleanup itself is defined
in every state and always yields the closed state, in which all four
operations again raise ConnectionError. -/
theorem client_ops_require_connection
    (serverTools : Nat → List MTool)
    (serverCall : Nat → String → List (String × String) → Option CallToolResult)
    (serverPrompt : Nat → String → Option GetPromptResult)
    (serverPrompts : Nat → List String)
    (tool_name : String) (tool_input : List (String × String)) (pname : String)
    (c c2 : MCPClient) (hc : c.sessionOpt = none) :
    (∃ m, MCPClient.list_tools serverTools c = .error (.connectionError m)) ∧
    (∃ m, MCPClient.call_tool serverCall c tool_name tool_input =
      .error (.connectionError m)) ∧
    (∃ m, MCPClient.run_prompt serverPrompt c pname = .error (.connectionError m)) ∧
    (∃ m, MCPClient.list_prompts serverPrompts c = .error (.connectionError m)) ∧
    (MCPClient.cleanup c2).sessionOpt = none ∧
    (∃ m, MCPClient.list_tools serverTools (MCPClient.cleanup c2) =
      .error (.connectionError m)) ∧
    (∃ m, MCPClient.call_tool serverCall (MCPClient.cleanup c2) tool_name tool_input =
      .error (.connectionError m)) ∧
    (∃ m, MCPClient.run_prompt serverPrompt (MCPClient.cleanup c2) pname =
      .error (.connectionError m)) ∧
    (∃ m, MCPClient.list_prompts serverPrompts (MCPClient.cleanup c2) =
      .error (.connectionError m)) := by
  refine ⟨?_, ?_, ?_, ?_, rfl, ?_, ?_, ?_, ?_⟩
  · exact ⟨"Client session not initialized. Call connect first.",
      by simp [MCPClient.list_tools, MCPClient.session, hc, Except.map]⟩
  · exact ⟨"Client session not initialized. Call connect first.",
      by simp [MCPClient.call_tool, MCPClient.session, hc, Except.map]⟩
  · exact ⟨"Not connected to the MCP server.",
      by simp [MCPClient.run_prompt, hc]⟩
  · exact ⟨"Not connected to the MCP server.",
      by simp [MCPClient.list_prompts, hc]⟩
  · exact ⟨"Client session not initialized. Call connect first.", rfl⟩
  · exact ⟨"Client session not initialized. Call connect first.", rfl⟩
  · exact ⟨"Not connected to the MCP server.", rfl⟩
  · exact ⟨"Not connected to the MCP server.", rfl⟩

theorem client_ops_require_connection_witness :
    (⟨none⟩ : MCPClient).sessionOpt = none ∧
    ∃ m, MCPClient.list_tools (fun _ => []) (⟨none⟩ : MCPClient) =
      .error (.connectionError m) :=
  ⟨rfl,
   (client_ops_require_connection (fun _ => []) (fun _ _ _ => none) (fun _ _ => none)
     (fun _ => []) "t" [] "p" ⟨none⟩ ⟨some 0⟩ rfl).1⟩

/-- Python truthiness of a JSON value (used by the inputSchema guard of
get_tools): None, empty containers, the empty string, zero, False and null
are falsy. -/
def JSON.pyTruthy : JSON → Bool
  | .str s => s != ""
  | .num n => n != 0
  | .boolean b => b
  | .null => false
  | .arr .nil => false
  | .arr _ => true
  | .obj .nil => false
  | .obj _ => true

/-- The oracles a running session interacts with: the prompt-resolution and
tool-listing endpoints of the connected MCP client, the generative-model API
and the MCP call_tool endpoint.  An Except.error models a raised exception
inside the corresponding remote call. -/
structure Env where
  runPromptOracle : String → Except String (Option String)
  listToolsOracle : Except String (List MTool)
  api : ChatApi
  callTool : ToolCaller

/-- Gemini.get_tools: fetch the MCP tools (a raised exception propagates)
and translate each into a Gemini tool entry, cleaning a truthy input schema
and substituting an empty dict otherwise.  The trace records the listTools
invocation. -/
def get_tools (listToolsOracle : Except String (List MTool)) :
    Except String (List GTool) × List RemoteCall :=
  (match listToolsOracle with
   | .error e => .error e
   | .ok mcp_tools =>
     .ok (mcp_tools.map (fun tool =>
       let cleaned_schema :=
         match tool.inputSchema with
         | some s => if s.pyTruthy then clean_schema s else JSON.obj .nil
         | none => JSON.obj .nil
       ⟨[⟨tool.name, tool.description, cleaned_schema⟩]⟩)),
   [RemoteCall.listToolsCall])

/-- The dispatch block of ChatSession.run: a slash input is split into a
prompt name and a follow-up text; the empty name raises IndexError (the
parts[0] subscript on an empty list, uncaught); a prompt-resolution failure
is caught and abandons the turn (ok none); a falsy resolved prompt appends
nothing; otherwise the resolved template and the follow-up are joined with a
blank line, trimmed, and appended as the user message.  A plain input is
appended verbatim.  The trace records the get_prompt invocation if made. -/
def dispatch (env : Env) (history : List Content) (user_input : String) :
    Except String (Option (List Content)) × List RemoteCall :=
  if py_startswith "/" user_input then
    match pySplitWhitespace (py_strip (py_drop 1 user_input)) with
    | [] => (.error "IndexError: list index out of range", [])
    | prompt_name :: parts_rest =>
      (match env.runPromptOracle prompt_name with
       | .error _ => .ok none
       | .ok prompt_content =>
         match prompt_content with
         | some t =>
           if t = "" then .ok (some history)
           else .ok (some (add_message_to_history history
             ⟨"user", [Part.text (py_strip (t ++ "\n\n" ++ py_join " " parts_rest))]⟩))
         | none => .ok (some history),
       [RemoteCall.getPromptCall prompt_name])
  else
    (.ok (some (add_message_to_history history ⟨"user", [Part.text user_input]⟩)), [])

/-- What one turn of ChatSession.run does to the committed history: the exit
input leaves the loop; an abandoned turn (continue) leaves it unchanged; a
completed turn commits the working history and displays the final text. -/
inductive TurnOutcome where
  | exited
  | aborted
  | committed (finalText : String)
  deriving DecidableEq

/-- The part of ChatSession.run after the first chat call returned a
response: validate and append the response, execute the requested tool
calls, and if the batch is nonempty append one tool-role message with all
result parts and issue a second chat call without the tool catalog; a second
absent response abandons the turn; otherwise the working history is
committed together with the final text. -/
def afterResponse (env : Env) (history working : List Content) (response : Response) :
    Except String (List Content × TurnOutcome) × List RemoteCall :=
  match execute_tool_requests env.callTool (some response) with
  | (tool_results, ttr) =>
    if tool_results.isEmpty then
      (.ok (add_valid_model_response (some response) working,
            .committed (text_from_message (some response))), ttr)
    else
      match chat env.api (add_message_to_history
          (add_valid_model_response (some response) working) ⟨"tool", tool_results⟩) none with
      | (.error e, ctr) => (.error e, ttr ++ ctr)
      | (.ok none, ctr) => (.ok (history, .aborted), ttr ++ ctr)
      | (.ok (some final_response_obj), ctr) =>
        (.ok (add_valid_model_response (some final_response_obj)
                (add_message_to_history
                  (add_valid_model_response (some response) working) ⟨"tool", tool_results⟩),
              .committed (text_from_message (some final_response_obj))), ttr ++ ctr)

/-- One iteration of the while loop of ChatSession.run, for one line of user
input: the result component is the committed history after the turn together
with the outcome (an Except.error is an exception escaping the loop), and
the trace component lists every remote invocation of the turn in order. -/
def runTurn (env : Env) (history : List Content) (user_input : String) :
    Except String (List Content × TurnOutcome) × List RemoteCall :=
  if str_lower user_input = "exit" then (.ok (history, .exited), [])
  else
    match dispatch env history user_input with
    | (.error e, dtr) => (.error e, dtr)
    | (.ok none, dtr) => (.ok (history, .aborted), dtr)
    | (.ok (some working), dtr) =>
      match get_tools env.listToolsOracle with
      | (.error e, gtr) => (.error e, dtr ++ gtr)
      | (.ok available_tools, gtr) =>
        match chat env.api working (some available_tools) with
        | (.error e, ctr) => (.error e, dtr ++ gtr ++ ctr)
        | (.ok none, ctr) => (.ok (history, .aborted), dtr ++ gtr ++ ctr)
        | (.ok (some response), ctr) =>
          match afterResponse env history working response with
          | (ares, atr) => (ares, dtr ++ gtr ++ ctr ++ atr)

/-- The while loop of ChatSession.run over a stream of input lines: stop on
exit, thread the committed history through the turns, propagate an uncaught
exception. -/
def runSession (env : Env) : List Content → List String → Except String (List Content)
  | history, [] => .ok history
  | history, user_input :: rest =>
    match (runTurn env history user_input).1 with
    | .error e => .error e
    | .ok (h2, .exited) => .ok h2
    | .ok (h2, _) => runSession env h2 rest

theorem chat_fst_ok (api : ChatApi) (messages : List Content)
    (tools : Option (List GTool)) :
    ∃ v, (chat api messages tools).1 = Except.ok v := by
  cases h : api messages (normalizeTools tools) with
  | success r => exact ⟨some r, by simp [chat, h]⟩
  | internalServerError m => exact ⟨none, by simp [chat, h]⟩
  | otherError m => exact ⟨none, by simp [chat, h]⟩

theorem afterResponse_abandon (env : Env) (history working : List Content)
    (response : Response) (h2 : List Content) (o : TurnOutcome)
    (hrun : (afterResponse env history working response).1 = .ok (h2, o))
    (hnc : ∀ t, o ≠ .committed t) : h2 = history := by
  simp only [afterResponse] at hrun
  split at hrun
  · simp only [Prod.fst] at hrun
    injection hrun with h
    injection h with ha hb
    exact absurd hb.symm (hnc _)
  · split at hrun
    · exact absurd hrun (by simp)
    · simp only [Prod.fst] at hrun
      injection hrun with h
      injection h with ha hb
      exact ha.symm
    · simp only [Prod.fst] at hrun
      injection hrun with h
      injection h with ha hb
      exact absurd hb.symm (hnc _)

/-- Claim C1: for every turn that abandons (the first chat call returns the
absent sentinel, prompt resolution fails, or the second-pass chat after tool
execution returns the absent sentinel), the committed history after the turn
is structurally equal to the committed history before the turn; and the
committed history changes only when the turn reaches the single commit point,
i.e. ends in the committed outcome. -/
theorem turn_abandon_preserves_history (env : Env) (history : List Content)
    (user_input : String) (h2 : List Content) (o : TurnOutcome)
    (hrun : (runTurn env history user_input).1 = .ok (h2, o)) :
    ((∀ t, o ≠ TurnOutcome.committed t) → h2 = history) ∧
    (h2 ≠ history → ∃ t, o = TurnOutcome.committed t) := by
  have main : (∀ t, o ≠ TurnOutcome.committed t) → h2 = history := by
    intro hnc
    simp only [runTurn] at hrun
    split at hrun
    · simp only [Prod.fst] at hrun
      injection hrun with h
      injection h with ha hb
      exact ha.symm
    · split at hrun
      · exact absurd hrun (by simp)
      · simp only [Prod.fst] at hrun
        injection hrun with h
        injection h with ha hb
        exact ha.symm
      · split at hrun
        · exact absurd hrun (by simp)
        · split at hrun
          · exact absurd hrun (by simp)
          · simp only [Prod.fst] at hrun
            injection hrun with h
            injection h with ha hb
            exact ha.symm
          · exact afterResponse_abandon env history _ _ h2 o hrun hnc
  refine ⟨main, ?_⟩
  intro hne
  by_contra hno
  push_neg at hno
  exact hne (main hno)

theorem turn_abandon_preserves_history_witness :
    ((runTurn ⟨fun _ => .ok none, .ok [],
        fun _ _ => ApiOutcome.internalServerError "500", fun _ _ => .ok none⟩
      [] "hello").1 = .ok ([], TurnOutcome.aborted)) ∧
    (((∀ t, TurnOutcome.aborted ≠ TurnOutcome.committed t) → ([] : List Content) = []) ∧
     (([] : List Content) ≠ [] → ∃ t, TurnOutcome.aborted = TurnOutcome.committed t)) :=
  ⟨by decide,
   turn_abandon_preserves_history
     ⟨fun _ => .ok none, .ok [],
      fun _ _ => ApiOutcome.internalServerError "500", fun _ _ => .ok none⟩
     [] "hello" [] TurnOutcome.aborted (by decide)⟩

theorem dispatch_error_iff (env : Env) (history : List Content)
    (user_input : String) (e : String) :
    (dispatch env history user_input).1 = Except.error e ↔
      (py_startswith "/" user_input = true ∧
       pySplitWhitespace (py_strip (py_drop 1 user_input)) = [] ∧
       e = "IndexError: list index out of range") := by
  unfold dispatch
  by_cases hs : py_startswith "/" user_input
  · rw [if_pos hs]
    rcases hl : pySplitWhitespace (py_strip (py_drop 1 user_input)) with
      _ | ⟨prompt_name, parts_rest⟩
    · simp [hs, eq_comm]
    · cases hp : env.runPromptOracle prompt_name with
      | error e2 => simp [hs, hl, hp]
      | ok pc =>
        cases pc with
        | none => simp [hs, hl, hp]
        | some t =>
          by_cases ht : t = "" <;> simp [hs, hl, hp, ht]
  · rw [if_neg hs]
    simp [hs]

theorem get_tools_error (o : Except String (List MTool)) (e : String)
    (h : (get_tools o).1 = Except.error e) : o = Except.error e := by
  cases o with
  | error e2 =>
    simp only [get_tools] at h
    injection h with h2
    rw [h2]
  | ok ts => simp [get_tools] at h

theorem afterResponse_fst_ok (env : Env) (history working : List Content)
    (response : Response) :
    ∃ out, (afterResponse env history working response).1 = Except.ok out := by
  unfold afterResponse
  rcases ht : execute_tool_requests env.callTool (some response) with ⟨tool_results, ttr⟩
  dsimp only
  by_cases he : tool_results.isEmpty
  · rw [if_pos he]
    exact ⟨_, rfl⟩
  · rw [if_neg he]
    rcases hc : chat env.api (add_message_to_history
        (add_valid_model_response (some response) working) ⟨"tool", tool_results⟩) none
      with ⟨cres, ctr⟩
    obtain ⟨v, hv⟩ := chat_fst_ok env.api (add_message_to_history
        (add_valid_model_response (some response) working) ⟨"tool", tool_results⟩) none
    rw [hc] at hv
    cases cres with
    | error e2 => exact absurd hv (by simp)
    | ok orr =>
      try dsimp only
      cases orr with
      | none => exact ⟨(history, .aborted), rfl⟩
      | some fr => exact ⟨_, rfl⟩

/-- An environment whose oracles all answer trivially. -/
def trivialEnv : Env :=
  ⟨fun _ => .ok none, .ok [], fun _ _ => ApiOutcome.internalServerError "500",
   fun _ _ => .ok none⟩

/-- Claim C5 counterexample: the user input consisting of a bare slash makes
the dispatch step evaluate the subscript parts[0] on an empty split result,
raising an IndexError that no handler in the per-turn sequence catches: the
turn ends in a raised exception instead of returning control to the input
loop, so this per-turn failure is not contained within the turn. -/
theorem turn_bare_slash_raises :
    (runTurn trivialEnv [] "/").1 =
      Except.error "IndexError: list index out of range" := by decide

/-- Claim C5 (amended): for every user input line whose slash-command name is
nonempty (when it is a slash command at all) and whose per-turn tool-catalog
fetch does not raise, every failure arising while dispatching the input,
resolving a prompt, calling the model (either pass), or executing tools is
contained within the turn: the turn never ends in an uncaught exception, so
the loop returns to awaiting the next input.  The two carved-out cases are
forced: a bare slash raises an uncaught IndexError, and a raised
tool-catalog fetch propagates out of the turn. -/
theorem turn_failures_contained (env : Env) (history : List Content)
    (user_input : String)
    (hname : py_startswith "/" user_input = true →
      pySplitWhitespace (py_strip (py_drop 1 user_input)) ≠ [])
    (hcat : ∀ e, env.listToolsOracle ≠ Except.error e) :
    ∃ out, (runTurn env history user_input).1 = Except.ok out := by
  unfold runTurn
  by_cases hx : str_lower user_input = "exit"
  · rw [if_pos hx]
    exact ⟨(history, .exited), rfl⟩
  · rw [if_neg hx]
    rcases hd : dispatch env history user_input with ⟨dres, dtr⟩
    cases dres with
    | error e =>
      have h1 : (dispatch env history user_input).1 = Except.error e := by rw [hd]
      obtain ⟨hs, hl, _⟩ := (dispatch_error_iff env history user_input e).mp h1
      exact absurd hl (hname hs)
    | ok ov =>
      dsimp only
      cases ov with
      | none => exact ⟨(history, .aborted), rfl⟩
      | some working =>
        dsimp only
        rcases hg : get_tools env.listToolsOracle with ⟨gres, gtr⟩
        cases gres with
        | error e =>
          have h2 : env.listToolsOracle = Except.error e :=
            get_tools_error _ e (by rw [hg])
          exact absurd h2 (hcat e)
        | ok available_tools =>
          dsimp only
          rcases hc : chat env.api working (some available_tools) with ⟨cres, ctr⟩
          obtain ⟨v, hv⟩ := chat_fst_ok env.api working (some available_tools)
          rw [hc] at hv
          cases cres with
          | error e => exact absurd hv (by simp)
          | ok orr =>
            try dsimp only
            cases orr with
            | none => exact ⟨(history, .aborted), rfl⟩
            | some response =>
              try dsimp only
              rcases ha : afterResponse env history working response with ⟨ares, atr⟩
              obtain ⟨out, hout⟩ := afterResponse_fst_ok env history working response
              rw [ha] at hout
              exact ⟨out, hout⟩

theorem turn_failures_contained_witness :
    ∃ out, (runTurn trivialEnv [] "hi").1 = Except.ok out :=
  turn_failures_contained trivialEnv [] "hi" (by decide)
    (fun _ h => Except.noConfusion h)

/-- Claim C8: an input equal to "exit" up to case terminates the session as
a terminal state, not an error: the turn ends the loop with the committed
history unchanged, the session result is that history regardless of any
further queued input, and the trace of remote calls made by the turn is
empty (the loop breaks before any remote invocation). -/
theorem exit_terminates_no_remote_calls (env : Env) (history : List Content)
    (user_input : String) (rest : List String)
    (hx : str_lower user_input = "exit") :
    runTurn env history user_input = (Except.ok (history, TurnOutcome.exited), []) ∧
    runSession env history (user_input :: rest) = Except.ok history := by
  have h1 : runTurn env history user_input =
      (Except.ok (history, TurnOutcome.exited), []) := by
    unfold runTurn
    rw [if_pos hx]
  refine ⟨h1, ?_⟩
  unfold runSession
  rw [h1]

theorem exit_terminates_no_remote_calls_witness :
    runTurn trivialEnv [] "Exit" =
      (Except.ok (([] : List Content), TurnOutcome.exited), []) ∧
    runSession trivialEnv [] ["Exit"] = Except.ok [] :=
  exit_terminates_no_remote_calls trivialEnv [] "Exit" [] (by decide)

theorem get_tools_snd (o : Except String (List MTool)) :
    (get_tools o).2 = [RemoteCall.listToolsCall] := by
  cases o <;> rfl

theorem chat_snd (api : ChatApi) (messages : List Content)
    (tools : Option (List GTool)) :
    (chat api messages tools).2 =
      [RemoteCall.generateContentCall messages (normalizeTools tools)] := rfl

theorem dispatch_plain (env : Env) (history : List Content) (user_input : String)
    (h : py_startswith "/" user_input = false) :
    dispatch env history user_input =
      (Except.ok (some (add_message_to_history history
        ⟨"user", [Part.text user_input]⟩)), []) := by
  simp [dispatch, h]

/-- Claim C7: for every turn in which the executed tool-call batch is
nonempty -- whatever the dispatched input was (a plain message or a resolved
slash command), whenever the turn reaches tool execution with a nonempty
batch -- the working history passed to the second chat call is the history
after the first response with exactly one appended message of role "tool"
that carries the entire batch of result parts, the second chat call is
issued without the tool catalog (the tools argument transmitted is none),
and the turn completes from that second call alone.  The first component
pins the result, the second pins the full remote-call trace: the dispatch
trace, one tool-listing, the first model call with the catalog, the
individual tool invocations in order, then the second model call on the
working history ending in the single tool message, with no catalog. -/
theorem tool_batch_single_message_second_chat (env : Env) (history : List Content)
    (user_input : String) (working : List Content)
    (available_tools : List GTool) (response : Response)
    (hexit : str_lower user_input ≠ "exit")
    (hdisp : (dispatch env history user_input).1 = Except.ok (some working))
    (htools : get_tools env.listToolsOracle =
      (Except.ok available_tools, [RemoteCall.listToolsCall]))
    (hchat : (chat env.api working (some available_tools)).1 =
      Except.ok (some response))
    (hres : (execute_tool_requests env.callTool (some response)).1 ≠ []) :
    runTurn env history user_input =
      (match (chat env.api
          (add_message_to_history
            (add_valid_model_response (some response) working)
            ⟨"tool", (execute_tool_requests env.callTool (some response)).1⟩) none).1 with
       | .error e => .error e
       | .ok none => .ok (history, TurnOutcome.aborted)
       | .ok (some fr) =>
         .ok (add_valid_model_response (some fr)
               (add_message_to_history
                 (add_valid_model_response (some response) working)
                 ⟨"tool", (execute_tool_requests env.callTool (some response)).1⟩),
              TurnOutcome.committed (text_from_message (some fr))),
       (dispatch env history user_input).2 ++
         (RemoteCall.listToolsCall ::
          RemoteCall.generateContentCall working (normalizeTools (some available_tools)) ::
          ((execute_tool_requests env.callTool (some response)).2 ++
           [RemoteCall.generateContentCall
             (add_message_to_history
               (add_valid_model_response (some response) working)
               ⟨"tool", (execute_tool_requests env.callTool (some response)).1⟩) none]))) := by
  unfold runTurn
  rw [if_neg hexit]
  rcases hd : dispatch env history user_input with ⟨dres, dtr⟩
  rw [hd] at hdisp
  have hdres : dres = Except.ok (some working) := hdisp
  subst hdres
  dsimp only
  rw [htools]
  dsimp only
  rcases hc : chat env.api working (some available_tools) with ⟨cres, ctr⟩
  rw [hc] at hchat
  have hcres : cres = Except.ok (some response) := hchat
  subst hcres
  have hctr : ctr = [RemoteCall.generateContentCall working
      (normalizeTools (some available_tools))] := by
    have h2 := chat_snd env.api working (some available_tools)
    rw [hc] at h2
    exact h2
  subst hctr
  dsimp only
  unfold afterResponse
  rcases hb : execute_tool_requests env.callTool (some response) with ⟨tool_results, ttr⟩
  rw [hb] at hres
  have hres2 : tool_results ≠ [] := hres
  dsimp only
  rw [if_neg (fun h => hres2 (List.isEmpty_iff.mp h))]
  rcases h2 : chat env.api (add_message_to_history
      (add_valid_model_response (some response) working)
      ⟨"tool", tool_results⟩) none with ⟨c2res, c2tr⟩
  have hc2tr : c2tr = [RemoteCall.generateContentCall
      (add_message_to_history
        (add_valid_model_response (some response) working)
        ⟨"tool", tool_results⟩) (normalizeTools none)] := by
    have h3 := chat_snd env.api (add_message_to_history
      (add_valid_model_response (some response) working)
      ⟨"tool", tool_results⟩) none
    rw [h2] at h3
    exact h3
  subst hc2tr
  cases c2res with
  | error e => simp [normalizeTools]
  | ok orr =>
    cases orr with
    | none => simp [normalizeTools]
    | some fr => simp [normalizeTools]

/-- An environment whose prompt oracle resolves every prompt to the text T,
whose model always answers with the single-tool-call response, and whose
tool calls return an empty result. -/
def envW : Env :=
  ⟨fun _ => .ok (some "T"), .ok [], fun _ _ => ApiOutcome.success respWithOneCall,
   fun _ _ => .ok none⟩

theorem tool_batch_single_message_second_chat_witness :
    (runTurn envW [] "/kickoff").1 =
      Except.ok
        (add_valid_model_response (some respWithOneCall)
          (add_message_to_history
            (add_valid_model_response (some respWithOneCall)
              [⟨"user", [Part.text "T"]⟩])
            ⟨"tool", (execute_tool_requests envW.callTool (some respWithOneCall)).1⟩),
         TurnOutcome.committed (text_from_message (some respWithOneCall))) := by
  have h := tool_batch_single_message_second_chat envW [] "/kickoff"
    [⟨"user", [Part.text "T"]⟩] [] respWithOneCall
    (by decide) (by decide) (by decide) (by decide) (by decide)
  have h1 := congrArg Prod.fst h
  rw [h1]
  decide

end MeetingAssistant
